import Mathlib

set_option maxRecDepth 8000
set_option maxHeartbeats 1000000

/-
Shallow embedding of the chunking / retrieval pipeline of the
rag-slack-bot repository.  Python strings are modelled as lists of
characters (a Python str is a sequence of code points); Python ints as
Nat/Int; Python floats appearing in the code as exact rationals; and
fallible code as Except.  Every definition below is translated from the
repository source; spec-side definitions are explicitly marked as such.
-/

/-! ## Python string primitives -/

/-- Model of a Python str: a list of code points. -/
abbrev PyStr := List Char

/-- Characters treated as whitespace by Python str.strip and str.split
(ASCII portion; the inputs of this repository are ASCII-oriented). -/
def isPySpace (c : Char) : Bool :=
  c = ' ' || c = '\t' || c = '\n' || c = '\r' || c = '\x0b' || c = '\x0c'

/-- Python s.strip(): remove leading and trailing whitespace. -/
def pyStrip (s : PyStr) : PyStr :=
  ((s.dropWhile isPySpace).reverse.dropWhile isPySpace).reverse

/-- Python s.strip(chars) for a single character, as in path.strip(sep). -/
def pyStripChar (ch : Char) (s : PyStr) : PyStr :=
  ((s.dropWhile (fun c => c = ch)).reverse.dropWhile (fun c => c = ch)).reverse

/-- Python s[a:b] for 0 <= a, b (out-of-range indices clamp). -/
def pySlice (s : PyStr) (a b : ℕ) : PyStr :=
  (s.take b).drop a

/-- Python text.rfind(" ", a, b): index of the last space at position i,
a <= i < b, or -1 when there is none. -/
def pyRfindSpace (s : PyStr) (a b : ℕ) : Int :=
  match ((List.range s.length).filter
      (fun i => decide (a ≤ i) && decide (i < b) &&
        decide (s.getD i 'A' = ' '))).getLast? with
  | some i => (i : Int)
  | none => -1

/-- Python str.lower restricted to ASCII (sufficient for the ASCII-only
regular expression of the source). -/
def pyLower (s : PyStr) : PyStr := s.map Char.toLower

/-- Python sep.join(parts). -/
def pyJoin (sep : PyStr) (parts : List PyStr) : PyStr :=
  List.intercalate sep parts

/-- Python s.split() (no argument): split on whitespace runs, dropping
empty pieces.  Helper carrying the current word reversed. -/
def pySplitWSGo : PyStr → PyStr → List PyStr
  | [], cur => if cur = [] then [] else [cur.reverse]
  | c :: rest, cur =>
    if isPySpace c then
      if cur = [] then pySplitWSGo rest [] else cur.reverse :: pySplitWSGo rest []
    else pySplitWSGo rest (c :: cur)

/-- Python s.split() with no argument. -/
def pySplitWS (s : PyStr) : List PyStr := pySplitWSGo s []

/-- Executable substring test: p occurs contiguously inside s. -/
def isSubstr (p s : PyStr) : Bool :=
  (List.range (s.length + 1)).any (fun i => p.isPrefixOf (s.drop i))

/-! ## Data model: app/chunking/models.py -/

/-- ChunkMetadata from app/chunking/models.py.  The source dataclass has
exactly these fields (custom_metadata, a free-form dict, is modelled as an
association list); note that it has NO source_tab_id field. -/
structure ChunkMetadata where
  source_document_id : PyStr
  source_tab : Option PyStr := none
  source_section : Option PyStr := none
  chunk_index : ℕ := 0
  total_chunks : ℕ := 0
  start_position : ℕ := 0
  end_position : ℕ := 0
  overlap_before : ℕ := 0
  overlap_after : ℕ := 0
  heading_level : ℕ := 0
  contains_question : Bool := false
  estimated_tokens : ℕ := 0
  custom_metadata : List (PyStr × PyStr) := []
deriving DecidableEq

/-- Chunk from app/chunking/models.py (list of floats modelled as a list
of rationals; only presence and emptiness of embeddings matter here). -/
structure Chunk where
  content : PyStr
  summary : Option PyStr := none
  embedding : Option (List ℚ) := none
  metadata : Option ChunkMetadata := none
deriving DecidableEq

/-- Chunk.get_token_count: len(content) // 4. -/
def Chunk.get_token_count (c : Chunk) : ℕ := c.content.length / 4

/-- Chunk.get_word_count: len(content.split()). -/
def Chunk.get_word_count (c : Chunk) : ℕ := (pySplitWS c.content).length

/-! ## Data model: app/google_docs/parser.py -/

/-- DocumentElement (style and metadata dicts are never read by the
chunking pipeline and are omitted). -/
structure DocumentElement where
  elem_type : PyStr
  text : PyStr
  level : ℕ := 0
deriving DecidableEq

/-- DocumentSection: title, heading level, elements and nested
subsections. -/
inductive DocumentSection where
  | mk (title : PyStr) (level : ℕ) (elements : List DocumentElement)
      (subsections : List DocumentSection)

def DocumentSection.title : DocumentSection → PyStr
  | .mk t _ _ _ => t

def DocumentSection.level : DocumentSection → ℕ
  | .mk _ l _ _ => l

/-- The separator "\n\n" used by get_full_text. -/
def blankLine : PyStr := '\n' :: '\n' :: []

mutual

/-- DocumentSection.get_full_text: join the title, the stripped nonempty
element texts, and the stripped nonempty subsection texts with "\n\n". -/
def DocumentSection.get_full_text : DocumentSection → PyStr
  | .mk title _level elements subsections =>
    let parts_title : List PyStr := if title = [] then [] else [title]
    let parts_elements :=
      (elements.map (fun e => pyStrip e.text)).filter (fun t => t ≠ [])
    let parts_subs :=
      ((sectionFullTexts subsections).map pyStrip).filter (fun t => t ≠ [])
    pyJoin blankLine (parts_title ++ parts_elements ++ parts_subs)

/-- get_full_text mapped over a list of subsections. -/
def sectionFullTexts : List DocumentSection → List PyStr
  | [] => []
  | s :: rest => DocumentSection.get_full_text s :: sectionFullTexts rest

end

/-- ParsedDocument from app/google_docs/parser.py. -/
structure ParsedDocument where
  title : PyStr
  document_id : PyStr
  sections : List DocumentSection

/-! ## BasicChunkingStrategy: app/chunking/strategies.py -/

/-- Constructor arguments of BasicChunkingStrategy (respect_sections is
stored by the source constructor but never read afterwards). -/
structure BasicChunkingConfig where
  max_chunk_size : ℕ := 1000
  overlap_size : ℕ := 100
  respect_sections : Bool := true
deriving DecidableEq

/-- The literal alternatives of the question regular expression
r"\?|what|how|why|when|where|who". -/
def questionKeywords : List PyStr :=
  [['?'],
   ['w', 'h', 'a', 't'],
   ['h', 'o', 'w'],
   ['w', 'h', 'y'],
   ['w', 'h', 'e', 'n'],
   ['w', 'h', 'e', 'r', 'e'],
   ['w', 'h', 'o']]

/-- BasicChunkingStrategy._contains_question: re.search of an
alternation of literals with IGNORECASE, i.e. a case-insensitive
substring test for any of the literal alternatives. -/
def _contains_question (text : PyStr) : Bool :=
  questionKeywords.any (fun k => isSubstr (pyLower k) (pyLower text))

/-- One loop iteration of _split_text_with_overlap: the window end.
end = min(start + max_chunk_size, len(text)); if end < len(text), look
for the last space in [start, end) and cut there when
last_space > start + max_chunk_size * 0.8.  The float comparison with
0.8 is the exact integer comparison 5 * last_space > 5 * start + 4 *
max_chunk_size for all realistic sizes. -/
def splitWindowEnd (cfg : BasicChunkingConfig) (text : PyStr) (start : ℕ) : ℕ :=
  let end0 := min (start + cfg.max_chunk_size) text.length
  if end0 < text.length then
    let last_space := pyRfindSpace text start end0
    if 5 * last_space > 5 * (start : Int) + 4 * (cfg.max_chunk_size : Int) then
      last_space.toNat
    else end0
  else end0

/-- The cursor advance of _split_text_with_overlap:
start = max(start + max_chunk_size - overlap_size, end).  Nat truncated
subtraction agrees with the Python int here because when the Python
value is negative the max picks the window end anyway. -/
def splitNextStart (cfg : BasicChunkingConfig) (text : PyStr) (start : ℕ) : ℕ :=
  max (start + cfg.max_chunk_size - cfg.overlap_size) (splitWindowEnd cfg text start)

/-- The while loop of _split_text_with_overlap, with explicit fuel; one
unit of fuel per iteration.  none models a loop that needs more
iterations than the given fuel. -/
def splitGo (cfg : BasicChunkingConfig) (text : PyStr) :
    ℕ → ℕ → Option (List PyStr)
  | 0, start => if start < text.length then none else some []
  | fuel + 1, start =>
    if start < text.length then
      let e := splitWindowEnd cfg text start
      let chunk_text := pyStrip (pySlice text start e)
      match splitGo cfg text fuel (splitNextStart cfg text start) with
      | none => none
      | some rest => some (if chunk_text ≠ [] then chunk_text :: rest else rest)
    else some []

/-- BasicChunkingStrategy._split_text_with_overlap.  Fuel len(text)
suffices (the cursor strictly increases); see the progress theorems. -/
def _split_text_with_overlap (cfg : BasicChunkingConfig) (text : PyStr) :
    List PyStr :=
  (splitGo cfg text text.length 0).getD []

/-- BasicChunkingStrategy._chunk_section. -/
def _chunk_section (cfg : BasicChunkingConfig) (s : DocumentSection)
    (document_id : PyStr) (start_chunk_index : ℕ) (tab_name : Option PyStr) :
    List Chunk :=
  let section_text := s.get_full_text
  if pyStrip section_text = [] then []
  else if section_text.length ≤ cfg.max_chunk_size then
    [{ content := section_text,
       metadata := some
         { source_document_id := document_id,
           source_tab := tab_name,
           source_section := some s.title,
           chunk_index := start_chunk_index,
           start_position := 0,
           end_position := section_text.length,
           heading_level := s.level,
           contains_question := _contains_question section_text,
           estimated_tokens := section_text.length / 4 } }]
  else
    let chunk_pieces := _split_text_with_overlap cfg section_text
    chunk_pieces.enum.map (fun p =>
      { content := p.2,
        metadata := some
          { source_document_id := document_id,
            source_tab := tab_name,
            source_section := some s.title,
            chunk_index := start_chunk_index + p.1,
            start_position := 0,
            end_position := p.2.length,
            overlap_before := if p.1 > 0 then cfg.overlap_size else 0,
            overlap_after :=
              if p.1 < chunk_pieces.length - 1 then cfg.overlap_size else 0,
            heading_level := s.level,
            contains_question := _contains_question p.2,
            estimated_tokens := p.2.length / 4 } })

/-- The update of one chunk in the second pass of chunk_document: set
total_chunks when the chunk carries metadata. -/
def stampOne (n : ℕ) (c : Chunk) : Chunk :=
  match c.metadata with
  | some m => { c with metadata := some { m with total_chunks := n } }
  | none => c

/-- The second pass of chunk_document: stamp total_chunks on every chunk
that carries metadata. -/
def stampTotals (chunks : List Chunk) : List Chunk :=
  chunks.map (stampOne chunks.length)

/-- The section loop of BasicChunkingStrategy.chunk_document, threading
the running chunk_index. -/
def chunkDocumentGo (cfg : BasicChunkingConfig) (document_id : PyStr) :
    List DocumentSection → ℕ → List Chunk
  | [], _ => []
  | s :: rest, chunk_index =>
    let section_chunks := _chunk_section cfg s document_id chunk_index none
    section_chunks ++
      chunkDocumentGo cfg document_id rest (chunk_index + section_chunks.length)

/-- BasicChunkingStrategy.chunk_document. -/
def chunk_document (cfg : BasicChunkingConfig) (document : ParsedDocument) :
    List Chunk :=
  stampTotals (chunkDocumentGo cfg document.document_id document.sections 0)

/-! ## SmartChunkingStrategy: app/chunking/strategies.py -/

/-- Constructor arguments of SmartChunkingStrategy. -/
structure SmartChunkingConfig where
  max_chunk_size : ℕ := 1500
  overlap_size : ℕ := 150
  use_summaries : Bool := true

/-- The awaited collaborator calls made inside the try block of
SmartChunkingStrategy.chunk_document.  Each may raise (Except), which is
exactly what the outer except clause of chunk_document guards against:
chunkSectionSemantically is _chunk_section_semantically (break-point
detection plus splitting) and generateSummary is _generate_summary;
their internal handlers are part of the supplied behaviour. -/
structure SmartOracle (E : Type) where
  chunkSectionSemantically :
    DocumentSection → PyStr → ℕ → Except E (List Chunk)
  generateSummary : PyStr → Except E (Option PyStr)

/-- The summary pass of chunk_document: when use_summaries, chunks whose
content exceeds 200 characters get chunk.summary from _generate_summary. -/
def smartSummaryPass {E : Type} (o : SmartOracle E) (use_summaries : Bool) :
    List Chunk → Except E (List Chunk)
  | [] => .ok []
  | c :: rest => do
    let c2 ←
      if use_summaries && decide (c.content.length > 200) then do
        let s ← o.generateSummary c.content
        pure { c with summary := s }
      else pure c
    let rest2 ← smartSummaryPass o use_summaries rest
    pure (c2 :: rest2)

/-- The section loop inside the try block of
SmartChunkingStrategy.chunk_document, threading chunk_index. -/
def smartGoSections {E : Type} (o : SmartOracle E) (use_summaries : Bool)
    (document_id : PyStr) :
    List DocumentSection → ℕ → Except E (List Chunk)
  | [], _ => .ok []
  | s :: rest, chunk_index => do
    let section_chunks ← o.chunkSectionSemantically s document_id chunk_index
    let section_chunks2 ← smartSummaryPass o use_summaries section_chunks
    let more ← smartGoSections o use_summaries document_id rest
        (chunk_index + section_chunks2.length)
    pure (section_chunks2 ++ more)

/-- The body of the try block of SmartChunkingStrategy.chunk_document:
the section loop, then the total_chunks stamping pass. -/
def smart_chunk_document_body {E : Type} (o : SmartOracle E)
    (use_summaries : Bool) (document : ParsedDocument) :
    Except E (List Chunk) := do
  let chunks ← smartGoSections o use_summaries document.document_id
      document.sections 0
  pure (stampTotals chunks)

/-- SmartChunkingStrategy.chunk_document: run the body; any exception
falls back to BasicChunkingStrategy(max_chunk_size, overlap_size)
.chunk_document on the whole document. -/
def smart_chunk_document {E : Type} (o : SmartOracle E)
    (cfg : SmartChunkingConfig) (document : ParsedDocument) : List Chunk :=
  match smart_chunk_document_body o cfg.use_summaries document with
  | .ok chunks => chunks
  | .error _ =>
    chunk_document
      { max_chunk_size := cfg.max_chunk_size,
        overlap_size := cfg.overlap_size } document

/-! ## DocumentIndexer: app/embedding/indexer.py -/

/-- EmbeddingResult from app/llm/base.py. -/
structure EmbeddingResult where
  embedding : List ℚ
  model : PyStr
  token_count : Option ℤ := none
  success : Bool := true
  error : Option PyStr := none

/-- The text embedded for a chunk: summary + "\n\n" + content when the
chunk has a truthy (nonempty) summary, else the content alone. -/
def embeddingInputText (c : Chunk) : PyStr :=
  match c.summary with
  | some s => if s ≠ [] then s ++ blankLine ++ c.content else c.content
  | none => c.content

/-- DocumentIndexer._generate_chunk_embedding: call the provider inside
try/except; on exception or on an unsuccessful / empty result return
None, else the embedding. -/
def _generate_chunk_embedding {E : Type}
    (gen : PyStr → Except E EmbeddingResult) (c : Chunk) :
    Option (List ℚ) :=
  match gen (embeddingInputText c) with
  | .error _ => none
  | .ok result =>
    if result.success && result.embedding ≠ [] then some result.embedding
    else none

/-- The per-chunk update performed by the batch loop: chunk.embedding is
assigned the outcome of _generate_chunk_embedding. -/
def withComputedEmbedding {E : Type}
    (gen : PyStr → Except E EmbeddingResult) (c : Chunk) : Chunk :=
  { c with embedding := _generate_chunk_embedding gen c }

/-- The batch loop for i in range(0, len(chunks), batch_size): each batch
is chunks[i : i + batch_size]; its chunks are embedded concurrently and
appended in order. -/
def embedBatchesGo {E : Type} (gen : PyStr → Except E EmbeddingResult)
    (batch_size : ℕ) : List Chunk → List Chunk
  | [] => []
  | c :: rest =>
    ((c :: rest).take batch_size).map (withComputedEmbedding gen)
      ++ embedBatchesGo gen batch_size (rest.drop (batch_size - 1))
termination_by l => l.length
decreasing_by
  simp only [List.length_drop, List.length_cons]
  omega

/-- Message of the ZeroDivisionError raised by the integer division
(len(chunks) + batch_size - 1) // batch_size when batch_size is 0. -/
def zeroDivisionMessage : PyStr :=
  "ZeroDivisionError: integer division or modulo by zero".toList

/-- DocumentIndexer._generate_embeddings_batch.  The method first
computes total_batches = (len(chunks) + batch_size - 1) // batch_size,
so batch_size == 0 raises ZeroDivisionError there, before the batch
loop runs and before any chunk is processed; otherwise the batches are
processed sequentially and every chunk is returned in order with its
computed embedding. -/
def _generate_embeddings_batch {E : Type}
    (gen : PyStr → Except E EmbeddingResult) (chunks : List Chunk)
    (batch_size : ℕ) : Except PyStr (List Chunk) :=
  if batch_size = 0 then .error zeroDivisionMessage
  else .ok (embedBatchesGo gen batch_size chunks)

/-! ## ChromaVectorDatabase.add_chunks: app/embedding/vectorizer.py -/

/-- A Python value stored in the ChromaDB metadata dict. -/
inductive PyValue where
  | str (s : PyStr)
  | int (n : ℤ)
  | bool (b : Bool)
  | dict (d : List (PyStr × PyStr))
  | pynone
deriving DecidableEq

/-- Python attribute access on a ChunkMetadata instance.  The dataclass
in app/chunking/models.py declares exactly the fields enumerated here;
any other attribute name raises AttributeError (nothing in the
repository assigns extra attributes to ChunkMetadata instances). -/
def ChunkMetadata.pyattr (m : ChunkMetadata) (name : PyStr) :
    Except PyStr PyValue :=
  if name = "source_document_id".toList then .ok (.str m.source_document_id)
  else if name = "source_tab".toList then
    .ok (match m.source_tab with | some s => .str s | none => .pynone)
  else if name = "source_section".toList then
    .ok (match m.source_section with | some s => .str s | none => .pynone)
  else if name = "chunk_index".toList then .ok (.int m.chunk_index)
  else if name = "total_chunks".toList then .ok (.int m.total_chunks)
  else if name = "start_position".toList then .ok (.int m.start_position)
  else if name = "end_position".toList then .ok (.int m.end_position)
  else if name = "overlap_before".toList then .ok (.int m.overlap_before)
  else if name = "overlap_after".toList then .ok (.int m.overlap_after)
  else if name = "heading_level".toList then .ok (.int m.heading_level)
  else if name = "contains_question".toList then .ok (.bool m.contains_question)
  else if name = "estimated_tokens".toList then .ok (.int m.estimated_tokens)
  else if name = "custom_metadata".toList then .ok (.dict m.custom_metadata)
  else .error ("AttributeError: ChunkMetadata object has no attribute ".toList
      ++ name)

/-- Python value_or_default for str attribute values: v or default
(None and the empty string are falsy). -/
def pyValueOr (v : PyValue) (d : PyStr) : PyValue :=
  match v with
  | .str s => if s ≠ [] then .str s else .str d
  | .pynone => .str d
  | other => other

/-- The four lists add_chunks prepares for collection.add. -/
structure PreparedAdd where
  ids : List PyStr
  embeddings : List (List ℚ)
  documents : List PyStr
  metadatas : List (List (PyStr × PyValue))
deriving DecidableEq

/-- The optional summary entry of the chunk metadata dict:
if chunk.summary (truthy), metadata["summary"] = chunk.summary. -/
def summaryEntries (c : Chunk) : List (PyStr × PyValue) :=
  match c.summary with
  | some s => if s ≠ [] then [("summary".toList, .str s)] else []
  | none => []

/-- The metadata dict built for one chunk by add_chunks: base entries,
then (when chunk.metadata is set) the update from the chunk metadata
attributes, then the optional summary.  The update reads
chunk.metadata.source_tab_id, an attribute the ChunkMetadata dataclass
does not declare, so it raises AttributeError. -/
def addChunkMetadataDict (i : ℕ) (c : Chunk) :
    Except PyStr (List (PyStr × PyValue)) := do
  let base : List (PyStr × PyValue) :=
    [("chunk_index".toList, .int i),
     ("content_length".toList, .int c.content.length),
     ("word_count".toList, .int c.get_word_count),
     ("token_count".toList, .int c.get_token_count)]
  let withMeta ←
    match c.metadata with
    | none => pure base
    | some m => do
      let vDoc ← m.pyattr ("source_document_id".toList)
      let vTab ← m.pyattr ("source_tab".toList)
      let vTabId ← m.pyattr ("source_tab_id".toList)
      let vSection ← m.pyattr ("source_section".toList)
      let vLevel ← m.pyattr ("heading_level".toList)
      let vQuestion ← m.pyattr ("contains_question".toList)
      let vTokens ← m.pyattr ("estimated_tokens".toList)
      pure (base ++
        [("source_document_id".toList, vDoc),
         ("source_tab".toList, pyValueOr vTab ("Untitled Tab".toList)),
         ("source_tab_id".toList, vTabId),
         ("source_section".toList, pyValueOr vSection ("Untitled Section".toList)),
         ("heading_level".toList, vLevel),
         ("contains_question".toList, vQuestion),
         ("estimated_tokens".toList, vTokens)])
  pure (withMeta ++ summaryEntries c)

/-- The for i, chunk in enumerate(chunks) loop of add_chunks.  hashFn
models Python hash() on the first 100 characters of the content (its
value is irrelevant to the claims; Python randomizes it per process). -/
def addChunksGo (hashFn : PyStr → ℤ) :
    ℕ → PreparedAdd → List Chunk → Except PyStr PreparedAdd
  | _, acc, [] => .ok acc
  | i, acc, c :: rest =>
    match c.embedding with
    | none => addChunksGo hashFn (i + 1) acc rest
    | some emb => do
      let chunk_id := "chunk_".toList ++ (toString i).toList ++ "_".toList
          ++ (toString (hashFn (c.content.take 100))).toList
      let metadata ← addChunkMetadataDict i c
      addChunksGo hashFn (i + 1)
        { ids := acc.ids ++ [chunk_id],
          embeddings := acc.embeddings ++ [emb],
          documents := acc.documents ++ [c.content],
          metadatas := acc.metadatas ++ [metadata] } rest

/-- ChromaVectorDatabase.add_chunks: with no chunks it returns after a
warning; otherwise it prepares ids, embeddings, documents and metadatas
(skipping chunks without an embedding) and passes them to
collection.add.  An exception inside the loop is logged and re-raised by
the surrounding try/except. -/
def add_chunks (hashFn : PyStr → ℤ) (chunks : List Chunk) :
    Except PyStr PreparedAdd :=
  if chunks = [] then .ok ⟨[], [], [], []⟩
  else addChunksGo hashFn 0 ⟨[], [], [], []⟩ chunks

/-! ## QueryProcessor: app/query/processor.py -/

/-- The metadata dict of a raw vector-store match, restricted to the
keys the processor reads (absent key = none). -/
structure RawSearchMetadata where
  document_name : Option PyStr := none
  path : Option PyStr := none
  source_section : Option PyStr := none
  source_tab : Option PyStr := none
  source_document_id : Option PyStr := none
  document_id : Option PyStr := none
  source_tab_id : Option PyStr := none
deriving DecidableEq

/-- One raw result dict returned by the vector store collaborator:
content, similarity and metadata. -/
structure RawSearchResult where
  content : PyStr
  similarity : ℚ
  metadata : RawSearchMetadata
deriving DecidableEq

/-- SearchResult from app/query/models.py. -/
structure SearchResult where
  content : PyStr
  similarity : ℚ
  metadata : RawSearchMetadata
  source_section : PyStr
  source_tab : PyStr
  document_url : Option PyStr := none
deriving DecidableEq

/-- Python a or b on optional strings: a when truthy (present and
nonempty), else b. -/
def pyOrOpt (a b : Option PyStr) : Option PyStr :=
  match a with
  | some s => if s ≠ [] then some s else b
  | none => b

/-- QueryProcessor._generate_doc_url. -/
def _generate_doc_url (metadata : RawSearchMetadata) : Option PyStr :=
  let doc_id := pyOrOpt metadata.source_document_id metadata.document_id
  let tab_id := metadata.source_tab_id
  match doc_id with
  | none => none
  | some d =>
    if d = [] then none
    else
      let docs_url := "https://docs.google.com/document/d/".toList ++ d
          ++ "/edit".toList
      match tab_id with
      | some t =>
        if t ≠ [] then some (docs_url ++ "?tab=t.".toList ++ t)
        else if d.length > 20 then some docs_url
        else some ("https://drive.google.com/file/d/".toList ++ d
            ++ "/view".toList)
      | none =>
        if d.length > 20 then some docs_url
        else some ("https://drive.google.com/file/d/".toList ++ d
            ++ "/view".toList)

/-- The SearchResult built by search_documents for one raw result:
Office-document metadata (a document_name key is present) uses
document_name and path; Google-Docs metadata uses source_section and
source_tab. -/
def toSearchResult (result : RawSearchResult) : SearchResult :=
  let metadata := result.metadata
  let pair : PyStr × PyStr :=
    match metadata.document_name with
    | some dn =>
      let stripped := pyStripChar '/' (metadata.path.getD [])
      (dn, if stripped ≠ [] then stripped else "Documents".toList)
    | none =>
      (metadata.source_section.getD ("Untitled Section".toList),
       metadata.source_tab.getD ("Untitled Tab".toList))
  { content := result.content,
    similarity := result.similarity,
    metadata := result.metadata,
    source_section := pair.1,
    source_tab := pair.2,
    document_url := _generate_doc_url result.metadata }

/-- QueryProcessor.search_documents: ask the store (modelled as a
function from the requested limit to its ordered result list) for
limit * 2 candidates, keep those with similarity >= min_similarity in
store order, convert them, and truncate to limit. -/
def search_documents (store : ℕ → List RawSearchResult) (limit : ℕ)
    (min_similarity : ℚ) : List SearchResult :=
  let raw_results := store (limit * 2)
  let search_results :=
    (raw_results.filter (fun r => min_similarity ≤ r.similarity)).map
      toSearchResult
  search_results.take limit

/-- The confidence boost: min(0.1 * count(similarity > 0.3), 0.3). -/
def confidence_boost_of (search_results : List SearchResult) : ℚ :=
  min (((search_results.filter
      (fun r => (3 : ℚ) / 10 < r.similarity)).length : ℚ) * (1 / 10)) (3 / 10)

/-- QueryProcessor._calculate_confidence. -/
def _calculate_confidence (search_results : List SearchResult) : ℚ :=
  match search_results with
  | [] => 0
  | top :: _ =>
    let confidence :=
      min (top.similarity + confidence_boost_of search_results) (95 / 100)
    max confidence 0

/-- ResponseResult from app/llm/base.py (the response property is an
alias of content). -/
structure ResponseResult where
  content : PyStr
  model : PyStr
  token_count : Option ℤ := none
  finish_reason : Option PyStr := none
  success : Bool := true
  error : Option PyStr := none

/-- The fixed answer returned when there are no search results. -/
def noRelevantInfoMessage : PyStr :=
  "I couldn\x27t find any relevant information in the documentation to answer your question. Please try rephrasing your question or ask about a different topic.".toList

/-- The fixed answer returned when the completion call fails. -/
def generationErrorMessage : PyStr :=
  "I encountered an error while generating a response. Please try again.".toList

/-- The constant pieces of the RAG prompt f-string. -/
def ragPromptHeader : PyStr :=
  "You are a concise technical assistant. Answer based ONLY on the provided documentation.\n\nDocumentation:\n".toList

def ragPromptMiddle : PyStr := "\n\nUser Question: ".toList

def ragPromptFooter : PyStr :=
  "\n\nInstructions:\n- Give a direct, actionable answer\n- Use bullet points for steps\n- Keep response under 3-4 sentences unless listing steps\n- Cite source document names in parentheses\n- If information is incomplete, say so briefly\n\nAnswer:".toList

/-- One context block: [source - section]:\ncontent[:500]. -/
def contextPart (result : SearchResult) : PyStr :=
  let source := if result.source_tab ≠ [] then result.source_tab
    else "Document".toList
  let sectionPart := if result.source_section ≠ [] then
    " - ".toList ++ result.source_section else []
  "[".toList ++ source ++ sectionPart ++ "]:\n".toList
    ++ result.content.take 500

/-- QueryProcessor.generate_response, with the completion collaborator
as an oracle.  The second component counts the completion calls made
(0 or 1), so that never calling the collaborator is expressible. -/
def generate_response (llm : PyStr → ResponseResult) (query : PyStr)
    (search_results : List SearchResult) : PyStr × ℕ :=
  if search_results = [] then (noRelevantInfoMessage, 0)
  else
    let context_parts := (search_results.take 3).map contextPart
    let context_text := List.intercalate ("\n---\n".toList) context_parts
    let full_prompt := ragPromptHeader ++ context_text ++ ragPromptMiddle
        ++ query ++ ragPromptFooter
    let response_result := llm full_prompt
    if response_result.success && response_result.content ≠ [] then
      (response_result.content, 1)
    else (generationErrorMessage, 1)

/-! ## Spec-side definitions (for refinement claims) -/

/-- Modelled from the spec: clamp x to the interval lo..hi. -/
def clampQ (lo hi x : ℚ) : ℚ := max lo (min hi x)

/-- Modelled from the spec: confidence for a result set is
top_similarity + min(0.1 * count(similarity > 0.3), 0.3), clamped to
the interval from 0 to 0.95; zero results give confidence 0.0. -/
def spec_confidence (search_results : List SearchResult) : ℚ :=
  match search_results with
  | [] => 0
  | top :: _ =>
    clampQ 0 (95 / 100)
      (top.similarity +
        min ((1 / 10) * ((search_results.filter
          (fun r => (3 : ℚ) / 10 < r.similarity)).length : ℚ)) (3 / 10))

/-- The suffix of chunk a and the prefix of chunk b share at least m
characters: some string of length at least m is simultaneously a suffix
of a and a prefix of b. -/
def sharesBoundary (a b : PyStr) (m : ℕ) : Bool :=
  (List.range (a.length + 1)).any
    (fun k => decide (m ≤ k) && a.drop (a.length - k) == b.take k)

/-! ## Progress of the size-based splitter -/

/-- The window end lies strictly beyond the cursor whenever the cursor
is inside the text and max_chunk_size is positive. -/
theorem splitWindowEnd_gt (cfg : BasicChunkingConfig) (text : PyStr)
    (start : ℕ) (hmax : 1 ≤ cfg.max_chunk_size)
    (hstart : start < text.length) :
    start < splitWindowEnd cfg text start := by
  unfold splitWindowEnd
  dsimp only
  split
  · split
    · rename_i hc
      omega
    · omega
  · omega

/-- The cursor strictly advances on every loop iteration. -/
theorem splitNextStart_gt (cfg : BasicChunkingConfig) (text : PyStr)
    (start : ℕ) (hmax : 1 ≤ cfg.max_chunk_size)
    (hstart : start < text.length) :
    start < splitNextStart cfg text start := by
  have h := splitWindowEnd_gt cfg text start hmax hstart
  unfold splitNextStart
  omega

/-- Fuel equal to the remaining distance to the end of the text is
enough for the splitting loop to finish. -/
theorem splitGo_isSome (cfg : BasicChunkingConfig) (text : PyStr)
    (hmax : 1 ≤ cfg.max_chunk_size) :
    ∀ fuel start, text.length ≤ start + fuel →
      (splitGo cfg text fuel start).isSome = true := by
  intro fuel
  induction fuel with
  | zero =>
    intro start h
    have hns : ¬ start < text.length := by omega
    unfold splitGo
    simp [hns]
  | succ f ih =>
    intro start h
    unfold splitGo
    by_cases hs : start < text.length
    · have hnext := splitNextStart_gt cfg text start hmax hs
      have hrec := ih (splitNextStart cfg text start) (by omega)
      simp only [hs, if_true]
      cases hgo : splitGo cfg text f (splitNextStart cfg text start) with
      | none => rw [hgo] at hrec; simp at hrec
      | some rest => simp [hgo]
    · simp [hs]

/-- C3: for every text and every configuration with max_chunk_size > 0
and any overlap_size (including overlap_size >= max_chunk_size), the
cursor of the size-based splitter strictly increases on every loop
iteration, and the splitting loop terminates within len(text)
iterations (fuel len(text) never runs out). -/
theorem splitter_progress_and_termination (cfg : BasicChunkingConfig)
    (text : PyStr) (hmax : 1 ≤ cfg.max_chunk_size) :
    (∀ start, start < text.length → start < splitNextStart cfg text start)
    ∧ (splitGo cfg text text.length 0).isSome = true :=
  ⟨fun start hs => splitNextStart_gt cfg text start hmax hs,
   splitGo_isSome cfg text hmax text.length 0 (by omega)⟩

/-- Witness for C3 at a concrete configuration and text. -/
theorem splitter_progress_and_termination_witness :
    1 ≤ (5 : ℕ)
    ∧ ((∀ start, start < ("ab c de".toList).length →
          start < splitNextStart ⟨5, 2, true⟩ ("ab c de".toList) start)
      ∧ (splitGo ⟨5, 2, true⟩ ("ab c de".toList)
          ("ab c de".toList).length 0).isSome = true) :=
  ⟨by decide,
   splitter_progress_and_termination ⟨5, 2, true⟩ ("ab c de".toList)
     (by decide)⟩

/-- C1: the size-based splitter does not overlap consecutive chunks.
On the 20-character text below with max_chunk_size = 5 and
overlap_size = 2 it produces four chunks cut at 5-character boundaries;
the interior consecutive pair (chunk 1, chunk 2) shares no suffix or
prefix of length at least min(overlap_size, len(chunk 1)) = 2, because
the cursor advance max(start + max_chunk_size - overlap_size, end)
never moves the next start before the previous window end. -/
theorem splitter_no_overlap_at_failing_input :
    _split_text_with_overlap ⟨5, 2, true⟩ ("abcdefghijklmnopqrst".toList)
        = ["abcde".toList, "fghij".toList, "klmno".toList, "pqrst".toList]
    ∧ sharesBoundary ("fghij".toList) ("klmno".toList)
        (min 2 ("fghij".toList).length) = false := by
  constructor
  · rfl
  · rfl

/-- C2: the size-based splitter loses non-whitespace characters.  On
the 21-character text below (17 letters a, a space, then bcd) with
max_chunk_size = 20 and overlap_size = 1, the word-boundary cut ends
the first window at the space (index 17) while the cursor then advances
to max(0 + 20 - 1, 17) = 19, so the character b at index 18 lands in no
chunk: the output is the 17 letters a followed by the chunk cd. -/
theorem splitter_character_loss_at_failing_input :
    _split_text_with_overlap ⟨20, 1, true⟩ ("aaaaaaaaaaaaaaaaa bcd".toList)
        = ["aaaaaaaaaaaaaaaaa".toList, "cd".toList]
    ∧ 'b' ∈ ("aaaaaaaaaaaaaaaaa bcd".toList)
    ∧ isPySpace 'b' = false
    ∧ (_split_text_with_overlap ⟨20, 1, true⟩
        ("aaaaaaaaaaaaaaaaa bcd".toList)).all
        (fun c => ! c.contains 'b') = true := by
  refine ⟨by rfl, by decide, by rfl, by rfl⟩

/-! ## Confidence scoring -/

/-- A search result whose similarity is 0 (e.g. a store whose distance
convention produces similarity 1 - distance = 0). -/
def zeroSimResult : SearchResult :=
  { content := [], similarity := 0, metadata := {},
    source_section := [], source_tab := [] }

/-- C4 counterexample: a nonempty result list whose confidence is 0.0,
refuting that confidence == 0.0 only when the result list is empty. -/
theorem confidence_zero_on_nonempty_results :
    _calculate_confidence [zeroSimResult] = 0
    ∧ ([zeroSimResult] : List SearchResult) ≠ [] :=
  ⟨by norm_num [_calculate_confidence, confidence_boost_of, zeroSimResult,
      List.filter],
   by decide⟩

/-- C4 (amended): the confidence equals the top similarity plus
min(0.1 * count(similarity > 0.3), 0.3) clamped to the interval from 0
to 0.95; the empty list yields 0.0; the bounds 0 <= confidence <= 0.95
always hold; and confidence == 0.0 exactly when the result list is
empty or the clamp floor binds (top similarity plus boost is
nonpositive). -/
theorem calculate_confidence_properties :
    (∀ rs, _calculate_confidence rs = spec_confidence rs)
    ∧ _calculate_confidence [] = 0
    ∧ (∀ rs, 0 ≤ _calculate_confidence rs
        ∧ _calculate_confidence rs ≤ 95 / 100)
    ∧ (∀ rs, _calculate_confidence rs = 0 ↔
        match rs with
        | [] => True
        | top :: _ => top.similarity + confidence_boost_of rs ≤ 0) := by
  refine ⟨?_, rfl, ?_, ?_⟩
  · intro rs
    cases rs with
    | nil => rfl
    | cons top rest =>
      unfold _calculate_confidence spec_confidence clampQ confidence_boost_of
      dsimp only
      rw [max_comm, mul_comm, min_comm _ ((95 : ℚ) / 100)]
  · intro rs
    cases rs with
    | nil => exact ⟨le_refl 0, by norm_num [_calculate_confidence]⟩
    | cons top rest =>
      unfold _calculate_confidence
      dsimp only
      constructor
      · exact le_max_right _ _
      · exact max_le (le_trans (min_le_right _ _) (by norm_num)) (by norm_num)
  · intro rs
    cases rs with
    | nil => simp [_calculate_confidence]
    | cons top rest =>
      unfold _calculate_confidence
      dsimp only
      rw [max_eq_right_iff]
      constructor
      · intro h
        rcases min_le_iff.mp h with h1 | h1
        · exact h1
        · norm_num at h1
      · intro h
        exact le_trans (min_le_left _ _) h

/-! ## search_documents -/

/-- Conversion to SearchResult copies the raw similarity through. -/
theorem toSearchResult_similarity (r : RawSearchResult) :
    (toSearchResult r).similarity = r.similarity := rfl

/-- C5: search_documents asks the store for 2 x limit candidates,
returns at most limit results, every returned result passes the
min_similarity filter, the output is a sublist of the converted store
output (store order preserved), and hence a store ordered by descending
similarity yields an output ordered by descending similarity. -/
theorem search_documents_contract (store : ℕ → List RawSearchResult)
    (limit : ℕ) (min_similarity : ℚ) :
    search_documents store limit min_similarity
        = (((store (2 * limit)).filter
            (fun r => min_similarity ≤ r.similarity)).map
            toSearchResult).take limit
    ∧ (search_documents store limit min_similarity).length ≤ limit
    ∧ (∀ r ∈ search_documents store limit min_similarity,
        min_similarity ≤ r.similarity)
    ∧ (search_documents store limit min_similarity).Sublist
        ((store (2 * limit)).map toSearchResult)
    ∧ (List.Sorted (fun a b => b.similarity ≤ a.similarity)
          ((store (2 * limit)).map toSearchResult) →
        List.Sorted (fun a b => b.similarity ≤ a.similarity)
          (search_documents store limit min_similarity)) := by
  have heq : search_documents store limit min_similarity
      = (((store (2 * limit)).filter
          (fun r => min_similarity ≤ r.similarity)).map
          toSearchResult).take limit := by
    rw [Nat.mul_comm]
    rfl
  have hsub : (search_documents store limit min_similarity).Sublist
      ((store (2 * limit)).map toSearchResult) := by
    rw [heq]
    exact (List.take_sublist _ _).trans
      ((List.filter_sublist _).map toSearchResult)
  refine ⟨heq, ?_, ?_, hsub, ?_⟩
  · rw [heq]
    simp [List.length_take]
  · intro r hr
    rw [heq] at hr
    obtain ⟨x, hx, rfl⟩ := List.mem_map.mp (List.mem_of_mem_take hr)
    rw [toSearchResult_similarity]
    exact of_decide_eq_true (List.mem_filter.mp hx).2
  · intro hsorted
    exact hsorted.sublist hsub

/-- A two-result store ordered by descending similarity, used to
instantiate the search contract. -/
def storeW : ℕ → List RawSearchResult := fun _ =>
  [{ content := "refund policy text".toList, similarity := 9 / 10,
     metadata := {} },
   { content := "returns faq".toList, similarity := 7 / 10,
     metadata := {} }]

/-- Witness for C5 at a concrete store, limit and threshold. -/
theorem search_documents_contract_witness :
    List.Sorted (fun a b => b.similarity ≤ a.similarity)
        ((storeW (2 * 2)).map toSearchResult)
    ∧ List.Sorted (fun a b => b.similarity ≤ a.similarity)
        (search_documents storeW 2 (1 / 2)) :=
  have hs : List.Sorted (fun a b => b.similarity ≤ a.similarity)
      ((storeW (2 * 2)).map toSearchResult) := by
    norm_num [storeW, toSearchResult, List.sorted_cons]
  ⟨hs, (search_documents_contract storeW 2 (1 / 2)).2.2.2.2 hs⟩

/-! ## Smart chunking fallback -/

/-- C6: whenever any exception escapes the body of
SmartChunkingStrategy.chunk_document (raised during break-point
detection, splitting or a summary call, and not absorbed by a local
handler), the method returns exactly the result of running
BasicChunkingStrategy.chunk_document with the same sizes on the whole
document: a coarse-grained, whole-document fallback. -/
theorem smart_chunking_whole_document_fallback {E : Type}
    (o : SmartOracle E) (cfg : SmartChunkingConfig)
    (document : ParsedDocument) (e : E)
    (h : smart_chunk_document_body o cfg.use_summaries document = .error e) :
    smart_chunk_document o cfg document
      = chunk_document
          { max_chunk_size := cfg.max_chunk_size,
            overlap_size := cfg.overlap_size } document := by
  unfold smart_chunk_document
  rw [h]

/-- An oracle whose section chunking raises on every call. -/
def failingOracle : SmartOracle Unit :=
  { chunkSectionSemantically := fun _ _ _ => .error (),
    generateSummary := fun _ => .ok none }

/-- A one-section document used to instantiate the fallback theorem. -/
def docW : ParsedDocument :=
  { title := "Handbook".toList,
    document_id := "doc-1".toList,
    sections :=
      [.mk ("Intro".toList) 1
        [{ elem_type := "paragraph".toList,
           text := "welcome to the handbook".toList }] []] }

/-- Witness for C6: the failing oracle makes the body raise, and then
smart chunking returns the basic whole-document result. -/
theorem smart_chunking_whole_document_fallback_witness :
    smart_chunk_document_body failingOracle
        ({} : SmartChunkingConfig).use_summaries docW = .error ()
    ∧ smart_chunk_document failingOracle {} docW
        = chunk_document
            { max_chunk_size := ({} : SmartChunkingConfig).max_chunk_size,
              overlap_size := ({} : SmartChunkingConfig).overlap_size }
            docW :=
  have hbody : smart_chunk_document_body failingOracle
      ({} : SmartChunkingConfig).use_summaries docW = .error () := by rfl
  ⟨hbody,
   smart_chunking_whole_document_fallback failingOracle {} docW () hbody⟩

/-! ## Embedding batch pipeline -/

/-- With a positive batch_size, the sequential batch loop visits every
chunk exactly once, in order. -/
theorem embedBatchesGo_eq_map {E : Type}
    (gen : PyStr → Except E EmbeddingResult) (batch_size : ℕ)
    (h : 1 ≤ batch_size) :
    ∀ l : List Chunk, embedBatchesGo gen batch_size l
      = l.map (withComputedEmbedding gen) := by
  have H : ∀ n, ∀ l : List Chunk, l.length ≤ n →
      embedBatchesGo gen batch_size l
        = l.map (withComputedEmbedding gen) := by
    intro n
    induction n with
    | zero =>
      intro l hl
      have hnil : l = [] := List.eq_nil_of_length_eq_zero (by omega)
      subst hnil
      rw [embedBatchesGo]
      rfl
    | succ n ih =>
      intro l hl
      cases l with
      | nil => rw [embedBatchesGo]; rfl
      | cons c rest =>
        rw [embedBatchesGo]
        rw [ih (rest.drop (batch_size - 1))
          (by simp only [List.length_drop, List.length_cons] at hl ⊢; omega)]
        have hb : rest.drop (batch_size - 1)
            = (c :: rest).drop batch_size := by
          cases batch_size with
          | zero => omega
          | succ k => simp
        rw [hb, ← List.map_append, List.take_append_drop]
  exact fun l => H l.length l (le_refl _)

/-- C7 (amended, batch_size >= 1): _generate_embeddings_batch returns
all input chunks in order, each with its embedding set to the outcome
of its own embedding call; a call that raises or returns an
unsuccessful or empty result leaves that chunk with embedding None
without affecting any other chunk; a successful call populates the
embedding. -/
theorem embeddings_batch_isolation {E : Type}
    (gen : PyStr → Except E EmbeddingResult) (chunks : List Chunk)
    (batch_size : ℕ) (h : 1 ≤ batch_size) :
    _generate_embeddings_batch gen chunks batch_size
        = .ok (chunks.map (withComputedEmbedding gen))
    ∧ (chunks.map (withComputedEmbedding gen)).length = chunks.length
    ∧ (∀ c : Chunk, (withComputedEmbedding gen c).content = c.content
        ∧ (withComputedEmbedding gen c).summary = c.summary
        ∧ (withComputedEmbedding gen c).metadata = c.metadata
        ∧ (withComputedEmbedding gen c).embedding
            = _generate_chunk_embedding gen c)
    ∧ (∀ c : Chunk, ∀ e : E, gen (embeddingInputText c) = .error e →
        _generate_chunk_embedding gen c = none)
    ∧ (∀ c : Chunk, ∀ r : EmbeddingResult,
        gen (embeddingInputText c) = .ok r →
        (r.success = false ∨ r.embedding = [] →
            _generate_chunk_embedding gen c = none)
        ∧ (r.success = true → r.embedding ≠ [] →
            _generate_chunk_embedding gen c = some r.embedding)) := by
  refine ⟨?_, List.length_map _ _, fun c => ⟨rfl, rfl, rfl, rfl⟩, ?_, ?_⟩
  · unfold _generate_embeddings_batch
    have hne : ¬ batch_size = 0 := by omega
    rw [if_neg hne, embedBatchesGo_eq_map gen batch_size h chunks]
  · intro c e herr
    unfold _generate_chunk_embedding
    rw [herr]
  · intro c r hok
    constructor
    · intro hfail
      unfold _generate_chunk_embedding
      rw [hok]
      rcases hfail with hf | hf <;> simp [hf]
    · intro hsucc hne
      unfold _generate_chunk_embedding
      rw [hok]
      simp [hsucc, hne]

/-- An embedding provider that raises on one specific input text. -/
def genW : PyStr → Except PyStr EmbeddingResult := fun text =>
  if text = "bad".toList then .error ("boom".toList)
  else .ok { embedding := [1, 2], model := "m".toList }

/-- Three chunks, the middle of which makes genW raise. -/
def chunksW : List Chunk :=
  [{ content := "good one".toList },
   { content := "bad".toList },
   { content := "also good".toList }]

/-- Witness for C7 at a concrete provider, chunk list and batch size. -/
theorem embeddings_batch_isolation_witness :
    1 ≤ 2
    ∧ _generate_embeddings_batch genW chunksW 2
        = .ok (chunksW.map (withComputedEmbedding genW)) :=
  ⟨by decide, (embeddings_batch_isolation genW chunksW 2 (by decide)).1⟩

/-- C7 counterexample: with batch_size = 0 the computation of
total_batches divides by batch_size and raises ZeroDivisionError before
the batch loop starts, so the call returns no chunk list at all,
refuting the claim for every batch_size. -/
theorem embeddings_batch_zero_batch_size :
    _generate_embeddings_batch genW chunksW 0 = .error zeroDivisionMessage
    ∧ (Except.error zeroDivisionMessage : Except PyStr (List Chunk))
        ≠ .ok (chunksW.map (withComputedEmbedding genW)) :=
  ⟨rfl, fun hcontra => Except.noConfusion hcontra⟩

/-! ## add_chunks and the missing source_tab_id attribute -/

/-- The AttributeError raised when add_chunks reads
chunk.metadata.source_tab_id. -/
def pyAttrErrorMessage : PyStr :=
  "AttributeError: ChunkMetadata object has no attribute ".toList
    ++ "source_tab_id".toList

/-- Reduction of bind on an ok value in the Except monad. -/
theorem except_bind_ok {ε α β : Type} (x : α) (f : α → Except ε β) :
    (Except.ok x >>= f) = f x := rfl

/-- Reduction of bind on an error in the Except monad. -/
theorem except_bind_error {ε α β : Type} (e : ε) (f : α → Except ε β) :
    ((Except.error e : Except ε α) >>= f) = Except.error e := rfl

/-- Building the metadata dict for a chunk that carries chunk metadata
always raises the AttributeError, whatever the metadata holds. -/
theorem addChunkMetadataDict_error (i : ℕ) (c : Chunk) (m : ChunkMetadata)
    (hm : c.metadata = some m) :
    addChunkMetadataDict i c = .error pyAttrErrorMessage := by
  unfold addChunkMetadataDict
  rw [hm]
  rfl

/-- The add_chunks loop raises the AttributeError as soon as it meets a
chunk that has both an embedding and chunk metadata. -/
theorem addChunksGo_error (hashFn : PyStr → ℤ) :
    ∀ (chunks : List Chunk) (i : ℕ) (acc : PreparedAdd),
      (∃ c ∈ chunks, c.embedding ≠ none ∧ c.metadata ≠ none) →
      addChunksGo hashFn i acc chunks = .error pyAttrErrorMessage := by
  intro chunks
  induction chunks with
  | nil =>
    intro i acc h
    simp at h
  | cons c rest ih =>
    intro i acc h
    rw [addChunksGo]
    cases hemb : c.embedding with
    | none =>
      apply ih
      rcases h with ⟨c0, hc0mem, hprops⟩
      rcases List.mem_cons.mp hc0mem with rfl | hmem
      · exact absurd hemb hprops.1
      · exact ⟨c0, hmem, hprops⟩
    | some emb =>
      cases hmeta : c.metadata with
      | none =>
        have hdict : addChunkMetadataDict i c
            = .ok (([("chunk_index".toList, .int i),
                ("content_length".toList, .int c.content.length),
                ("word_count".toList, .int c.get_word_count),
                ("token_count".toList, .int c.get_token_count)] :
                  List (PyStr × PyValue)) ++ summaryEntries c) := by
          unfold addChunkMetadataDict
          rw [hmeta]
          rfl
        dsimp only
        rw [hdict, except_bind_ok]
        apply ih
        rcases h with ⟨c0, hc0mem, hprops⟩
        rcases List.mem_cons.mp hc0mem with rfl | hmem
        · exact absurd hmeta hprops.2
        · exact ⟨c0, hmem, hprops⟩
      | some m =>
        have hdict := addChunkMetadataDict_error i c m hmeta
        dsimp only
        rw [hdict, except_bind_error]

/-- C8: whenever the chunk list contains a chunk that has both an
embedding and chunk metadata (the normal output of the chunking engine
after embedding), ChromaVectorDatabase.add_chunks raises AttributeError
while reading chunk.metadata.source_tab_id — a field the ChunkMetadata
dataclass does not declare — so the call errors and nothing is stored
through this path. -/
theorem add_chunks_attribute_error (hashFn : PyStr → ℤ)
    (chunks : List Chunk)
    (h : ∃ c ∈ chunks, c.embedding ≠ none ∧ c.metadata ≠ none) :
    add_chunks hashFn chunks = .error pyAttrErrorMessage := by
  have hne : chunks ≠ [] := by
    rcases h with ⟨c, hc, _⟩
    exact List.ne_nil_of_mem hc
  unfold add_chunks
  rw [if_neg hne]
  exact addChunksGo_error hashFn chunks 0 ⟨[], [], [], []⟩ h

/-- A chunk as the embedding pipeline produces it: content, an
embedding and chunk metadata. -/
def chunkM : Chunk :=
  { content := "hello world".toList,
    embedding := some [1, 0],
    metadata := some { source_document_id := "d1".toList } }

/-- Witness for C8 at a concrete chunk list. -/
theorem add_chunks_attribute_error_witness :
    (∃ c ∈ [chunkM], c.embedding ≠ none ∧ c.metadata ≠ none)
    ∧ add_chunks (fun _ => 0) [chunkM] = .error pyAttrErrorMessage :=
  have hex : ∃ c ∈ [chunkM], c.embedding ≠ none ∧ c.metadata ≠ none := by
    decide
  ⟨hex, add_chunks_attribute_error (fun _ => 0) [chunkM] hex⟩

/-! ## Question detector and token estimate -/

/-- The executable substring test agrees with list infixhood. -/
theorem isSubstr_iff (p s : PyStr) : isSubstr p s = true ↔ p <:+: s := by
  unfold isSubstr
  rw [List.any_eq_true]
  constructor
  · rintro ⟨i, _, hpref⟩
    rw [List.isPrefixOf_iff_prefix] at hpref
    exact hpref.isInfix.trans (List.drop_suffix i s).isInfix
  · rintro ⟨u, v, rfl⟩
    refine ⟨u.length, List.mem_range.mpr (by simp; omega), ?_⟩
    rw [List.append_assoc, List.drop_left]
    exact List.isPrefixOf_iff_prefix.mpr (List.prefix_append p v)

/-- The question detector is exactly a case-insensitive literal
substring test with no word boundaries. -/
theorem contains_question_iff (t : PyStr) :
    _contains_question t = true ↔
      ∃ k ∈ questionKeywords, pyLower k <:+: pyLower t := by
  unfold _contains_question
  rw [List.any_eq_true]
  constructor
  · rintro ⟨k, hk, hsub⟩
    exact ⟨k, hk, (isSubstr_iff _ _).mp hsub⟩
  · rintro ⟨k, hk, hinf⟩
    exact ⟨k, hk, (isSubstr_iff _ _).mpr hinf⟩

/-- The estimated_tokens metadata of a chunk matches
len(content) // 4. -/
def estTokensOk (c : Chunk) : Bool :=
  match c.metadata with
  | some m => m.estimated_tokens == c.content.length / 4
  | none => true

/-- Every chunk _chunk_section emits carries
estimated_tokens = len(content) // 4. -/
theorem chunk_section_tokens (cfg : BasicChunkingConfig)
    (s : DocumentSection) (document_id : PyStr) (idx : ℕ)
    (tab : Option PyStr) :
    ((_chunk_section cfg s document_id idx tab).all estTokensOk) = true := by
  unfold _chunk_section
  dsimp only
  split
  · rfl
  · split
    · simp [estTokensOk]
    · rw [List.all_eq_true]
      intro c hc
      obtain ⟨p, _, rfl⟩ := List.mem_map.mp hc
      simp [estTokensOk]

/-- Stamping total_chunks touches neither estimated_tokens nor
content. -/
theorem estTokensOk_stampOne (n : ℕ) (c : Chunk) :
    estTokensOk (stampOne n c) = estTokensOk c := by
  cases hm : c.metadata with
  | none => unfold stampOne; rw [hm]
  | some m =>
    unfold stampOne estTokensOk
    rw [hm]

/-- Stamping total_chunks preserves the token estimate on a list. -/
theorem stampTotals_tokens (l : List Chunk)
    (h : l.all estTokensOk = true) :
    (stampTotals l).all estTokensOk = true := by
  rw [List.all_eq_true] at h ⊢
  intro c hc
  obtain ⟨c0, hc0, rfl⟩ := List.mem_map.mp hc
  rw [estTokensOk_stampOne l.length c0]
  exact h c0 hc0

/-- The chunks of every section of the document satisfy the token
estimate. -/
theorem chunkDocumentGo_tokens (cfg : BasicChunkingConfig)
    (document_id : PyStr) :
    ∀ (sections : List DocumentSection) (idx : ℕ),
      (chunkDocumentGo cfg document_id sections idx).all estTokensOk
        = true := by
  intro sections
  induction sections with
  | nil => intro idx; rfl
  | cons s rest ih =>
    intro idx
    rw [chunkDocumentGo, List.all_append, chunk_section_tokens, ih]
    rfl

/-- C9: contains_question(text) is true exactly when the regular
expression alternation matches as a case-insensitive literal substring
with no word boundary (so how inside show matches), and every chunk of
the basic strategy carries estimated_tokens = len(text) // 4. -/
theorem question_detector_and_token_estimate :
    (∀ t : PyStr, _contains_question t = true ↔
      ∃ k ∈ questionKeywords, pyLower k <:+: pyLower t)
    ∧ _contains_question ("show".toList) = true
    ∧ (∀ (cfg : BasicChunkingConfig) (document : ParsedDocument),
        ((chunk_document cfg document).all estTokensOk) = true) :=
  ⟨contains_question_iff, by decide,
   fun cfg document =>
     stampTotals_tokens _
       (chunkDocumentGo_tokens cfg document.document_id document.sections 0)⟩

/-! ## generate_response on empty results -/

/-- C10: with zero search results the answer composer returns the fixed
no-relevant-information message and makes no completion call (the call
counter of the embedding is 0), for every completion collaborator and
every query. -/
theorem generate_response_empty_results :
    ∀ (llm : PyStr → ResponseResult) (query : PyStr),
      generate_response llm query [] = (noRelevantInfoMessage, 0) :=
  fun _ _ => rfl
